import Mathlib

/-!
Shallow embedding of `src/integrations/cloudflare_worker/src/lib.rs` (the
Leptos ↔ Cloudflare Worker integration): the `ResponseParts` / `ResponseOptions`
context value, `redirect`, and `handle_server_fns_with_context`.

Modelling choices, each noted at the definition it concerns:
* `worker::Headers` is a list of (name, value) pairs; the Fetch spec's
  header-name case-insensitivity is modelled by comparing lower-cased names.
* The `Arc<RwLock<ResponseParts>>` inside `ResponseOptions` is modelled by
  threading the `ResponseParts` value explicitly: a server function receives
  the current parts and returns the updated parts.
* Bytes are `List Nat`; `str::as_bytes` / `String::into_bytes` are UTF-8,
  implemented here directly (`utf8Bytes`, `strToBytes`).
* The reactive runtime / scope lifecycle (create_runtime,
  raw_scope_and_disposer, provide_context, disposer.dispose, runtime.dispose)
  is recorded as an event trace returned alongside the response.
* `worker::Response::from_body(ResponseBody::Body(..))` and
  `worker::Response::empty()` always return `Ok` in workers-rs (they merely
  construct the value), so `from_body` is total here and the source's dead
  `Err` fallback arms are not represented.
-/

/-- One byte, kept as `Nat` (all constructors below produce values < 256). -/
abbrev Byte := Nat

/-- UTF-8 encoding of one character (RFC 3629), used to model Rust's
`str::as_bytes` and `String::into_bytes`. -/
def utf8Bytes (c : Char) : List Byte :=
  let n := c.toNat
  if n < 0x80 then [n]
  else if n < 0x800 then
    [0xC0 ||| (n >>> 6), 0x80 ||| (n &&& 0x3F)]
  else if n < 0x10000 then
    [0xE0 ||| (n >>> 12), 0x80 ||| ((n >>> 6) &&& 0x3F), 0x80 ||| (n &&& 0x3F)]
  else
    [0xF0 ||| (n >>> 18), 0x80 ||| ((n >>> 12) &&& 0x3F),
     0x80 ||| ((n >>> 6) &&& 0x3F), 0x80 ||| (n &&& 0x3F)]

/-- The UTF-8 bytes of a string (`str::as_bytes` / `String::into_bytes`). -/
def strToBytes (s : String) : List Byte :=
  (s.data.map utf8Bytes).flatten

/-- ASCII lower-casing of one character. -/
def lowerChar (c : Char) : Char :=
  if 65 ≤ c.toNat ∧ c.toNat ≤ 90 then Char.ofNat (c.toNat + 32) else c

/-- Case-insensitive comparison of header names: the Fetch `Headers` object
wrapped by `worker::Headers` treats header names case-insensitively. -/
def nameEq (a b : String) : Bool :=
  a.data.map lowerChar == b.data.map lowerChar

/-- `worker::Headers`: an ordered multiset of (name, value) pairs. -/
abbrev Headers := List (String × String)

/-- `worker::Headers::new()` / `Headers::default()`: no headers. -/
def Headers.new : Headers := []

/-- `Headers::set(name, value)`: remove every header whose name matches
case-insensitively, then record the new pair. -/
def Headers.set (h : Headers) (k v : String) : Headers :=
  h.filter (fun p => !(nameEq p.1 k)) ++ [(k, v)]

/-- `Headers::append(name, value)`: add the pair, leaving existing pairs with
the same name intact. -/
def Headers.append (h : Headers) (k v : String) : Headers :=
  h ++ [(k, v)]

/-- Joins several values of one header name, comma-separated, as the Fetch
`Headers::get` does. -/
def joinVals : List String → String
  | [] => ""
  | [v] => v
  | v :: vs => v ++ ", " ++ joinVals vs

/-- `Headers::get(name)`: `none` when no header has the name (up to case),
otherwise the matching values joined with ", ". -/
def Headers.get (h : Headers) (k : String) : Option String :=
  match h.filter (fun p => nameEq p.1 k) with
  | [] => none
  | ps => some (joinVals (ps.map Prod.snd))

/-- `ResponseParts` (lib.rs lines 25–29): headers to add to the response and
an optional status override. `Default` gives empty headers and `None`. -/
structure ResponseParts where
  headers : Headers
  status : Option Nat
  deriving Repr, DecidableEq

/-- `ResponseParts::default()`. -/
def ResponseParts.default : ResponseParts :=
  { headers := Headers.new, status := none }

/-- `ResponseParts::insert_header` (lib.rs lines 32–35): set, overwriting any
previous value with the same key. -/
def ResponseParts.insert_header (p : ResponseParts) (k v : String) : ResponseParts :=
  { p with headers := p.headers.set k v }

/-- `ResponseParts::append_header` (lib.rs lines 36–39): append, leaving any
header with the same key intact. -/
def ResponseParts.append_header (p : ResponseParts) (k v : String) : ResponseParts :=
  { p with headers := p.headers.append k v }

/-- `ResponseOptions` is `Arc<RwLock<ResponseParts>>`; its content is modelled
as the bare `ResponseParts`, threaded through state-passing style, so each
method below maps the current parts to the updated parts. -/
abbrev ResponseOptions := ResponseParts

/-- `ResponseOptions::overwrite` (lib.rs lines 50–53): replace the whole
contents of the lock with the given parts. -/
def ResponseOptions.overwrite (_old new : ResponseParts) : ResponseParts :=
  new

/-- `ResponseOptions::set_status` (lib.rs lines 55–59). -/
def ResponseOptions.set_status (p : ResponseParts) (status : Nat) : ResponseParts :=
  { p with status := some status }

/-- `ResponseOptions::insert_header` (lib.rs lines 61–69). -/
def ResponseOptions.insert_header (p : ResponseParts) (k v : String) : ResponseParts :=
  { p with headers := p.headers.set k v }

/-- `ResponseOptions::append_header` (lib.rs lines 71–79). -/
def ResponseOptions.append_header (p : ResponseParts) (k v : String) : ResponseParts :=
  { p with headers := p.headers.append k v }

/-- `redirect` (lib.rs lines 85–90): the scope's context either holds a
`ResponseOptions` or not; when it does, set status 302 and insert a
`Location` header, otherwise do nothing. -/
def redirect (ctx : Option ResponseParts) (path : String) : Option ResponseParts :=
  match ctx with
  | some response_options =>
      some (ResponseOptions.insert_header
        (ResponseOptions.set_status response_options 302) "Location" path)
  | none => none

/-- `leptos::server_fn::Encoding`: how a server function's arguments travel. -/
inductive Encoding where
  | Url
  | GetJSON
  | GetCBOR
  | Cbor
  deriving Repr, DecidableEq

/-- `leptos::server_fn::Payload`: the serialized result of a server function.
`Url` and `Json` carry a `String` (turned into bytes with `into_bytes`). -/
inductive Payload where
  | Binary (data : List Byte)
  | Url (data : String)
  | Json (data : String)
  deriving Repr, DecidableEq

/-- A server-function error, as the handler observes it: `jsonSer` models the
result of `serde_json::to_string(&e)` (`none` = serialization failed) and
`display` models `e.to_string()`. -/
structure SFnError where
  jsonSer : Option String
  display : String
  deriving Repr, DecidableEq

/-- A registered server function: its declared encoding and its body. The
body receives the argument bytes and the current content of the
`ResponseOptions` provided to its scope, and returns its result together with
the (possibly mutated) `ResponseParts` — this models everything the function
can do to the `Arc<RwLock<ResponseParts>>` through the context. -/
structure ServerFn where
  encoding : Encoding
  call : List Byte → ResponseParts → Except SFnError Payload × ResponseParts

/-- The result of `worker::Headers::get` on the request side:
`Result<Option<String>>`. -/
inductive HeaderResult where
  | err
  | ok (value : Option String)
  deriving Repr, DecidableEq

/-- A `worker::Request`, reduced to what the handler reads: the URL path and
query, the header lookups it performs, and the body bytes (`none` models
`req.bytes()` failing, which the code maps to an empty default). -/
structure WRequest where
  urlPath : String
  urlQuery : Option String
  headerGet : String → HeaderResult
  bodyBytes : Option (List Byte)

/-- A `worker::Response`, reduced to status, headers and body bytes. -/
structure WResponse where
  status : Nat
  headers : Headers
  body : List Byte
  deriving Repr, DecidableEq

/-- `worker::Response::from_body(ResponseBody::Body(data))`: in workers-rs
this only constructs the value (status 200, fresh headers) and always returns
`Ok`, so it is total here and the source's `Err` fallback arms (lib.rs lines
222, 240, 257, 271, 291) are dead code, not represented. -/
def WResponse.from_body (data : List Byte) : WResponse :=
  { status := 200, headers := Headers.new, body := data }

/-- `Response::with_headers`: replace the response's headers. -/
def WResponse.with_headers (r : WResponse) (h : Headers) : WResponse :=
  { r with headers := h }

/-- `Response::with_status`: replace the response's status code. -/
def WResponse.with_status (r : WResponse) (s : Nat) : WResponse :=
  { r with status := s }

/-- `url.path().strip_prefix('/').unwrap_or(url.path())` (lib.rs line 147):
remove one leading '/' when present. -/
def stripOneSlash (path : String) : String :=
  match path.data with
  | c :: rest => if c = '/' then String.mk rest else path
  | [] => path

/-- Whether a string starts with the character '/'. -/
def startsWithSlash (s : String) : Bool :=
  match s.data with
  | c :: _ => c == '/'
  | [] => false

/-- The lifecycle events of one request, in the order the handler performs
them: runtime creation, scope creation, running the `additional_context`
closure, providing the default `ResponseOptions`, calling the server
function, disposing the scope, disposing the runtime. -/
inductive Ev where
  | createRuntime
  | createScope
  | additionalContext
  | provideResponseOptions
  | callServerFn
  | disposeScope
  | disposeRuntime
  deriving Repr, DecidableEq

/-- The `Accept` header as the handler reads it (lib.rs lines 179–182):
`Ok(o) => o, _ => None`. -/
def acceptOf (req : WRequest) : Option String :=
  match req.headerGet "Accept" with
  | .ok o => o
  | .err => none

/-- The `Referer` header as the handler reads it (lib.rs lines 197–200):
`Ok(Some(value)) => value, _ => "/"`. -/
def refererOf (req : WRequest) : String :=
  match req.headerGet "Referer" with
  | .ok (some value) => value
  | _ => "/"

/-- The bytes handed to the server function (lib.rs lines 157–169): for
`Url`/`Cbor` the request body's bytes with `unwrap_or_default` (empty when
the body cannot be read), for `GetJSON`/`GetCBOR` the bytes of
`url.query().unwrap_or("")`. -/
def serverFnData (server_fn : ServerFn) (req : WRequest) : List Byte :=
  let query := req.urlQuery.getD ""
  match server_fn.encoding with
  | .Url | .Cbor => req.bodyBytes.getD []
  | .GetJSON | .GetCBOR => strToBytes query

/-- Rust `Debug` escaping for one character, restricted to the two escapes
that can occur in a URL path ('"' and '\\'); `{:?}` also escapes control and
non-printable characters, which a parsed URL's path does not contain. -/
def escapeDebugChar (c : Char) : List Char :=
  if c = '"' then ['\\', '"']
  else if c = '\\' then ['\\', '\\']
  else [c]

/-- Rust `format!("{:?}", s)` for a string: the escaped characters between
double quotes. -/
def rustDebug (s : String) : String :=
  "\"" ++ String.mk ((s.data.map escapeDebugChar).flatten) ++ "\""

/-- The body of the 400 response when no server function matches
(lib.rs lines 280–288). -/
def notFoundMsg (path : String) : String :=
  "Could not find a server function at the route " ++ rustDebug path ++
    ". \n\nIt's likely that you need to call ServerFn::register_explicit() on the server function type, somewhere in your `main` function."

/-- `handle_server_fns_with_context` (lib.rs lines 128–296). The registry
models `leptos::leptos_server::server_fn_by_path`; the request models the
non-panicking reads of `req`. The `additional_context` closure runs before
the default `ResponseOptions` is provided and cannot touch the modelled
state, so it appears only as the `.additionalContext` trace event. Returns
the `WorkerResult<Response>` the future resolves to, paired with the
lifecycle event trace.

The line `res_parts.headers.entries().map(|(k, v)| headers.append(&k, &v))`
(lib.rs lines 209–212) builds a lazy `Iterator::map` adapter that is never
consumed, so the closure never runs and it has no effect on `headers`; it is
therefore represented by nothing here. -/
def handle_server_fns_with_context
    (registry : String → Option ServerFn) (req : WRequest) :
    Except String WResponse × List Ev :=
  match registry (stripOneSlash req.urlPath) with
  | some server_fn =>
      let data := serverFnData server_fn req
      let res :=
        match server_fn.call data ResponseParts.default with
        | (.ok serialized, res_parts) =>
            let accept_header := acceptOf req
            let base :=
              if accept_header = some "application/json"
                  ∨ accept_header = some "application/x-www-form-urlencoded"
                  ∨ accept_header = some "application/cbor" then
                (200, Headers.new)
              else
                (303, Headers.new.set "Location" (refererOf req))
            let res_status :=
              match res_parts.status with
              | some status => status
              | none => base.1
            let headers := base.2
            match serialized with
            | .Binary data =>
                ((WResponse.from_body data).with_headers headers).with_status
                  res_status
            | .Url data =>
                let headers :=
                  headers.set "Content-Type" "application/x-www-form-urlendcoded"
                ((WResponse.from_body (strToBytes data)).with_headers
                  headers).with_status res_status
            | .Json data =>
                let headers := headers.set "Content-Type" "application/json"
                ((WResponse.from_body (strToBytes data)).with_headers
                  headers).with_status res_status
        | (.error e, _) =>
            (WResponse.from_body
              (strToBytes (match e.jsonSer with
                | some s => s
                | none => e.display))).with_status 500
      (Except.ok res,
        [.createRuntime, .createScope, .additionalContext,
         .provideResponseOptions, .callServerFn, .disposeScope,
         .disposeRuntime])
  | none =>
      (Except.ok
        ((WResponse.from_body (strToBytes (notFoundMsg req.urlPath))).with_status
          400),
        [])

/-- `handle_server_fns` (lib.rs lines 102–111): the same handler with the
trivial `additional_context` closure. -/
def handle_server_fns (registry : String → Option ServerFn) (req : WRequest) :
    Except String WResponse × List Ev :=
  handle_server_fns_with_context registry req

/-! ### Concrete fixtures used by the per-claim theorems and witnesses -/

/-- A server function that returns a result unchanged while inserting the
header `X-Custom: 1` into the `ResponseOptions` from its scope's context. -/
def c1Fn : ServerFn :=
  { encoding := .GetJSON,
    call := fun _ parts =>
      (Except.ok (Payload.Binary []),
        ResponseOptions.insert_header parts "X-Custom" "1") }

/-- A registry holding only `c1Fn` at path `api`. -/
def c1Reg : String → Option ServerFn :=
  fun q => if q = "api" then some c1Fn else none

/-- A request for `/api` with `Accept: application/json`. -/
def c1Req : WRequest :=
  { urlPath := "/api", urlQuery := none,
    headerGet := fun n =>
      if n = "Accept" then .ok (some "application/json") else .ok none,
    bodyBytes := none }

/-- A server function that replies `Payload::Url("a=1")`. -/
def c4Fn : ServerFn :=
  { encoding := .GetJSON,
    call := fun _ parts => (Except.ok (Payload.Url "a=1"), parts) }

/-- A registry holding only `c4Fn` at path `api`. -/
def c4Reg : String → Option ServerFn :=
  fun q => if q = "api" then some c4Fn else none

/-- A request for `/api` with `Accept: application/json`. -/
def c4Req : WRequest :=
  { urlPath := "/api", urlQuery := none,
    headerGet := fun n =>
      if n = "Accept" then .ok (some "application/json") else .ok none,
    bodyBytes := none }

/-- A server function that sets status 418 through
`ResponseOptions::set_status` before returning. -/
def c2Fn : ServerFn :=
  { encoding := .GetJSON,
    call := fun _ parts =>
      (Except.ok (Payload.Binary []), ResponseOptions.set_status parts 418) }

/-- A registry holding only `c2Fn` at path `teapot`. -/
def c2Reg : String → Option ServerFn :=
  fun q => if q = "teapot" then some c2Fn else none

/-- A request for `/teapot` with no relevant headers. -/
def c2Req : WRequest :=
  { urlPath := "/teapot", urlQuery := none,
    headerGet := fun _ => .ok none, bodyBytes := none }

/-- A server function that echoes the bytes it was handed back as a binary
payload, making the handler's argument selection observable. -/
def echoFn (enc : Encoding) : ServerFn :=
  { encoding := enc,
    call := fun data parts => (Except.ok (Payload.Binary data), parts) }

/-- A registry holding the echo function, with `Encoding::Url`, at `echo`. -/
def c3Reg : String → Option ServerFn :=
  fun q => if q = "echo" then some (echoFn Encoding.Url) else none

/-- A request for `/echo` carrying body bytes `[1, 2, 3]`. -/
def c3Req : WRequest :=
  { urlPath := "/echo", urlQuery := some "q=2",
    headerGet := fun _ => .ok none, bodyBytes := some [1, 2, 3] }

/-- An error whose JSON serialization fails, exercising the fallback to the
display string. -/
def c5Err : SFnError := { jsonSer := none, display := "boom" }

/-- A server function that always fails with `c5Err`. -/
def c5Fn : ServerFn :=
  { encoding := .Url, call := fun _ parts => (Except.error c5Err, parts) }

/-- A registry holding only `c5Fn` at path `fail`. -/
def c5Reg : String → Option ServerFn :=
  fun q => if q = "fail" then some c5Fn else none

/-- A request for `/fail`. -/
def c5Req : WRequest :=
  { urlPath := "/fail", urlQuery := none,
    headerGet := fun _ => .ok none, bodyBytes := none }

/-- A server function that fails, to exercise the error path of the
lifecycle. -/
def c7Fn : ServerFn :=
  { encoding := .GetCBOR,
    call := fun _ parts =>
      (Except.error { jsonSer := none, display := "e" }, parts) }

/-- A registry holding only `c7Fn` at path `job`. -/
def c7Reg : String → Option ServerFn :=
  fun q => if q = "job" then some c7Fn else none

/-- A request for `/job`. -/
def c7Req : WRequest :=
  { urlPath := "/job", urlQuery := none,
    headerGet := fun _ => .ok none, bodyBytes := none }

/-- The empty registry: no server function is registered. -/
def c8Reg : String → Option ServerFn := fun _ => none

/-- A request for `/missing`, a path no function is registered under. -/
def c8Req : WRequest :=
  { urlPath := "/missing", urlQuery := none,
    headerGet := fun _ => .ok none, bodyBytes := none }

/-- A server function that succeeds without touching its `ResponseOptions`. -/
def c9Fn : ServerFn :=
  { encoding := .GetJSON,
    call := fun _ parts => (Except.ok (Payload.Json "1"), parts) }

/-- A registry holding only `c9Fn` at path `q`. -/
def c9Reg : String → Option ServerFn :=
  fun q => if q = "q" then some c9Fn else none

/-- A request for `/q` with no `Accept` header and `Referer: /prev`. -/
def c9Req : WRequest :=
  { urlPath := "/q", urlQuery := none,
    headerGet := fun n =>
      if n = "Referer" then .ok (some "/prev") else .ok none,
    bodyBytes := none }

/-! ### Helper lemmas -/

theorem nameEq_refl (k : String) : nameEq k k = true := by
  simp [nameEq]

theorem Headers.get_set_self (h : Headers) (k v : String) :
    (Headers.set h k v).get k = some v := by
  unfold Headers.get Headers.set
  rw [List.filter_append]
  have h1 : List.filter (fun p => nameEq p.1 k)
      (List.filter (fun p => !(nameEq p.1 k)) h) = [] := by
    induction h with
    | nil => rfl
    | cons a t ih =>
        by_cases ha : nameEq a.1 k
        · simp [List.filter, ha, ih]
        · simp [List.filter, ha, ih]
  rw [h1]
  simp [List.filter, nameEq_refl, joinVals]

theorem nameEq_LL : nameEq "Location" "Location" = true := rfl

theorem nameEq_CL : nameEq "Content-Type" "Location" = false := rfl

theorem nameEq_LC : nameEq "Location" "Content-Type" = false := rfl

theorem stripOneSlash_spec (p path : String) :
    stripOneSlash path = p ↔
      (path = "/" ++ p ∨ (path = p ∧ startsWithSlash path = false)) := by
  obtain ⟨l⟩ := path
  cases l with
  | nil =>
      constructor
      · intro h
        exact Or.inr ⟨h, rfl⟩
      · rintro (h | ⟨h, _⟩)
        · have := congrArg String.data h
          simp [String.data_append] at this
        · exact h
  | cons c rest =>
      by_cases hc : c = '/'
      · subst hc
        constructor
        · intro h
          refine Or.inl ?_
          apply String.ext
          rw [String.data_append]
          have : (String.mk rest) = p := by
            simpa [stripOneSlash] using h
          simp [← this]
        · rintro (h | ⟨h, hs⟩)
          · have := congrArg String.data h
            rw [String.data_append] at this
            simp at this
            simp [stripOneSlash]
            exact String.ext this
          · simp [startsWithSlash] at hs
      · constructor
        · intro h
          refine Or.inr ⟨?_, ?_⟩
          · simpa [stripOneSlash, hc] using h
          · simp [startsWithSlash, hc]
        · rintro (h | ⟨h, _⟩)
          · have := congrArg String.data h
            rw [String.data_append] at this
            simp at this
            exact absurd this.1 hc
          · simpa [stripOneSlash, hc] using h

theorem escFlatten_clean (l : List Char) (h : ∀ c ∈ l, c ≠ '"' ∧ c ≠ '\\') :
    (l.map escapeDebugChar).flatten = l := by
  induction l with
  | nil => rfl
  | cons c t ih =>
      have hc := h c (by simp)
      simp [escapeDebugChar, hc.1, hc.2,
        ih (fun x hx => h x (by simp [hx]))]

/-! ### The claims -/

/-- C1: the claim says every header inserted or appended into the
`ResponseOptions` context value from inside the invoked function appears
among the headers of the returned response. The code contradicts it (and its
own comment "add the headers and status to the request"): the line
`res_parts.headers.entries().map(|(k, v)| headers.append(&k, &v))` is a lazy
iterator adapter that is never consumed, so the closure never runs. At the
concrete failing input, `c1Fn` inserts `X-Custom: 1` into its
`ResponseOptions` (first conjunct), yet the returned response has no headers
at all (second conjunct). -/
theorem c1_response_options_headers_dropped :
    (c1Fn.call [] ResponseParts.default).2.headers.get "X-Custom" = some "1" ∧
      (handle_server_fns_with_context c1Reg c1Req).1 =
        Except.ok { status := 200, headers := Headers.new, body := [] } :=
  ⟨rfl, rfl⟩

/-- C2: when the invoked server function succeeds and leaves `Some s` as the
status of the `ResponseOptions` context value (as `set_status` or `overwrite`
with a `Some` status does), the returned response carries exactly status `s`,
overriding whatever the `Accept`-header branch chose. -/
theorem c2_status_override (registry : String → Option ServerFn) (req : WRequest)
    (f : ServerFn) (payload : Payload) (parts : ResponseParts) (s : Nat)
    (hreg : registry (stripOneSlash req.urlPath) = some f)
    (hcall : f.call (serverFnData f req) ResponseParts.default =
      (Except.ok payload, parts))
    (hstatus : parts.status = some s) :
    ∃ r, (handle_server_fns_with_context registry req).1 = Except.ok r ∧
      r.status = s := by
  unfold handle_server_fns_with_context
  rw [hreg]
  simp only [hcall]
  cases payload <;>
    simp [hstatus, WResponse.with_status, WResponse.with_headers,
      WResponse.from_body]

/-- Witness for C2: a server function that calls
`ResponseOptions::set_status(418)` makes the handler answer with status 418
even though the request's `Accept` header would have chosen 303. -/
theorem c2_status_override_witness :
    ∃ r, (handle_server_fns_with_context c2Reg c2Req).1 = Except.ok r ∧
      r.status = 418 :=
  c2_status_override c2Reg c2Req c2Fn (Payload.Binary [])
    (ResponseOptions.set_status ResponseParts.default 418) 418 rfl rfl rfl

/-- C3: the bytes handed to a dispatched server function are chosen by its
declared encoding — observed through an echo function whose reply is exactly
its input: for `Url`/`Cbor` the response body is the request body's bytes
(empty when the body cannot be read), for `GetJSON`/`GetCBOR` it is the bytes
of the URL query string (empty when the URL has none). -/
theorem c3_encoding_selects_data (registry : String → Option ServerFn)
    (req : WRequest) (enc : Encoding)
    (hreg : registry (stripOneSlash req.urlPath) = some (echoFn enc)) :
    ∃ r, (handle_server_fns_with_context registry req).1 = Except.ok r ∧
      ((enc = .Url ∨ enc = .Cbor) → r.body = req.bodyBytes.getD []) ∧
      ((enc = .GetJSON ∨ enc = .GetCBOR) →
        r.body = strToBytes (req.urlQuery.getD "")) ∧
      ((enc = .Url ∨ enc = .Cbor) → req.bodyBytes = none → r.body = []) ∧
      ((enc = .GetJSON ∨ enc = .GetCBOR) → req.urlQuery = none →
        r.body = []) := by
  unfold handle_server_fns_with_context
  rw [hreg]
  refine ⟨_, rfl, ?_, ?_, ?_, ?_⟩ <;> rintro (h | h) <;> subst h <;>
    simp only [echoFn, serverFnData, WResponse.from_body,
      WResponse.with_headers, WResponse.with_status] <;>
    try rfl
  all_goals intro h
  all_goals rw [h]
  all_goals rfl

/-- Witness for C3: the echo function declared with `Encoding::Url` receives
— and therefore replies with — the request body's bytes `[1, 2, 3]`. -/
theorem c3_encoding_selects_data_witness :
    ∃ r, (handle_server_fns_with_context c3Reg c3Req).1 = Except.ok r ∧
      ((Encoding.Url = Encoding.Url ∨ Encoding.Url = Encoding.Cbor) →
        r.body = c3Req.bodyBytes.getD []) ∧
      ((Encoding.Url = Encoding.GetJSON ∨ Encoding.Url = Encoding.GetCBOR) →
        r.body = strToBytes (c3Req.urlQuery.getD "")) ∧
      ((Encoding.Url = Encoding.Url ∨ Encoding.Url = Encoding.Cbor) →
        c3Req.bodyBytes = none → r.body = []) ∧
      ((Encoding.Url = Encoding.GetJSON ∨ Encoding.Url = Encoding.GetCBOR) →
        c3Req.urlQuery = none → r.body = []) :=
  c3_encoding_selects_data c3Reg c3Req Encoding.Url rfl

/-- C4: the claim says a `Url` payload yields Content-Type
`application/x-www-form-urlencoded`. The code misspells the value: at the
failing input (a server function answering `Payload::Url("a=1")` to a request
with `Accept: application/json`), the response body is exactly the payload's
bytes and the status is 200, but the Content-Type header reads
`application/x-www-form-urlendcoded` — which the second conjunct shows to
differ from the standard spelling the code itself compares the `Accept`
header against on its line 190. -/
theorem c4_url_content_type_misspelled :
    (handle_server_fns_with_context c4Reg c4Req).1 =
        Except.ok (WResponse.mk 200
          [("Content-Type", "application/x-www-form-urlendcoded")]
          [97, 61, 49]) ∧
      ¬("application/x-www-form-urlendcoded" =
        "application/x-www-form-urlencoded") :=
  ⟨rfl, by decide⟩

/-- C5: when the invoked server function returns an error, the handler's
future still resolves to `Ok` of a response with status 500 whose body is the
error's JSON serialization, or its display string when serialization fails. -/
theorem c5_error_to_500 (registry : String → Option ServerFn) (req : WRequest)
    (f : ServerFn) (e : SFnError) (parts : ResponseParts)
    (hreg : registry (stripOneSlash req.urlPath) = some f)
    (hcall : f.call (serverFnData f req) ResponseParts.default =
      (Except.error e, parts)) :
    (handle_server_fns_with_context registry req).1 =
      Except.ok { status := 500, headers := Headers.new,
                  body := strToBytes (e.jsonSer.getD e.display) } := by
  unfold handle_server_fns_with_context
  rw [hreg]
  simp only [hcall]
  cases h : e.jsonSer <;>
    simp [h, WResponse.from_body, WResponse.with_status, Headers.new]

/-- Witness for C5: a failing server function whose error has no JSON
serialization produces a 500 response carrying the display string. -/
theorem c5_error_to_500_witness :
    (handle_server_fns_with_context c5Reg c5Req).1 =
      Except.ok { status := 500, headers := Headers.new,
                  body := strToBytes (c5Err.jsonSer.getD c5Err.display) } :=
  c5_error_to_500 c5Reg c5Req c5Fn c5Err ResponseParts.default rfl rfl

/-- C6: with a single function registered under name `p`, the handler enters
the dispatch branch (visible as a non-empty lifecycle trace) exactly when the
request's URL path equals '/' followed by `p`, or equals `p` itself while not
starting with '/' — i.e. the lookup key is the path with at most one leading
'/' removed. -/
theorem c6_path_lookup (p : String) (fn : ServerFn) (req : WRequest) :
    (handle_server_fns_with_context
        (fun q => if q = p then some fn else none) req).2 ≠ [] ↔
      (req.urlPath = "/" ++ p ∨
        (req.urlPath = p ∧ startsWithSlash req.urlPath = false)) := by
  rw [← stripOneSlash_spec]
  unfold handle_server_fns_with_context
  by_cases h : stripOneSlash req.urlPath = p <;> simp [h]

/-- C7: whenever a request reaches a registered server function — whatever
the function, so on the success path and on the error path alike — the
lifecycle trace is exactly: one runtime created, one scope created, the
additional context run, the fresh default `ResponseOptions` provided, the
function called, then the scope and the runtime disposed before the handler
returns. -/
theorem c7_scope_lifecycle (registry : String → Option ServerFn)
    (req : WRequest) (f : ServerFn)
    (hreg : registry (stripOneSlash req.urlPath) = some f) :
    (handle_server_fns_with_context registry req).2 =
      [.createRuntime, .createScope, .additionalContext,
       .provideResponseOptions, .callServerFn, .disposeScope,
       .disposeRuntime] := by
  unfold handle_server_fns_with_context
  rw [hreg]

/-- Witness for C7: the lifecycle trace at a concrete request whose server
function fails, exercising the error path. -/
theorem c7_scope_lifecycle_witness :
    (handle_server_fns_with_context c7Reg c7Req).2 =
      [.createRuntime, .createScope, .additionalContext,
       .provideResponseOptions, .callServerFn, .disposeScope,
       .disposeRuntime] :=
  c7_scope_lifecycle c7Reg c7Req c7Fn rfl

/-- C8: when no registered server function matches the request's path (after
stripping one leading '/'), the handler returns status 400 with the
explanatory message as body — a message that contains the path itself, shown
here for paths free of characters the `Debug` format escapes — and the
lifecycle trace is empty: no runtime and no scope were created. -/
theorem c8_not_found (registry : String → Option ServerFn) (req : WRequest)
    (hreg : registry (stripOneSlash req.urlPath) = none)
    (hclean : ∀ c ∈ req.urlPath.data, c ≠ '"' ∧ c ≠ '\\') :
    (handle_server_fns_with_context registry req).1 =
        Except.ok { status := 400, headers := Headers.new,
                    body := strToBytes (notFoundMsg req.urlPath) } ∧
      (handle_server_fns_with_context registry req).2 = [] ∧
      req.urlPath.data <:+: (notFoundMsg req.urlPath).data := by
  refine ⟨?_, ?_, ?_⟩
  · unfold handle_server_fns_with_context
    rw [hreg]
    rfl
  · unfold handle_server_fns_with_context
    rw [hreg]
  · rw [notFoundMsg, rustDebug]
    refine ⟨("Could not find a server function at the route " ++ "\"").data,
      ("\"" ++ ". \n\nIt's likely that you need to call ServerFn::register_explicit() on the server function type, somewhere in your `main` function.").data,
      ?_⟩
    simp [String.data_append, escFlatten_clean _ hclean, List.append_assoc]

/-- Witness for C8: the empty registry and the path `/missing`. -/
theorem c8_not_found_witness :
    (handle_server_fns_with_context c8Reg c8Req).1 =
        Except.ok { status := 400, headers := Headers.new,
                    body := strToBytes (notFoundMsg c8Req.urlPath) } ∧
      (handle_server_fns_with_context c8Reg c8Req).2 = [] ∧
      c8Req.urlPath.data <:+: (notFoundMsg c8Req.urlPath).data :=
  c8_not_found c8Reg c8Req rfl (by decide)

/-- C9: when the invoked server function succeeds without setting a status
override, the response status is 200 exactly when the request's `Accept`
header equals `application/json`, `application/x-www-form-urlencoded` or
`application/cbor`; for any other or missing (or unreadable) `Accept` header
the status is 303 and the `Location` header equals the request's `Referer`
header — which is read as "/" when absent or unreadable. -/
theorem c9_default_status (registry : String → Option ServerFn)
    (req : WRequest) (f : ServerFn) (payload : Payload) (parts : ResponseParts)
    (hreg : registry (stripOneSlash req.urlPath) = some f)
    (hcall : f.call (serverFnData f req) ResponseParts.default =
      (Except.ok payload, parts))
    (hstatus : parts.status = none) :
    ∃ r, (handle_server_fns_with_context registry req).1 = Except.ok r ∧
      (r.status = 200 ↔
        (acceptOf req = some "application/json" ∨
         acceptOf req = some "application/x-www-form-urlencoded" ∨
         acceptOf req = some "application/cbor")) ∧
      (¬(acceptOf req = some "application/json" ∨
         acceptOf req = some "application/x-www-form-urlencoded" ∨
         acceptOf req = some "application/cbor") →
        r.status = 303 ∧ r.headers.get "Location" = some (refererOf req)) ∧
      (req.headerGet "Referer" = HeaderResult.ok none → refererOf req = "/") ∧
      (req.headerGet "Referer" = HeaderResult.err → refererOf req = "/") := by
  have href1 : req.headerGet "Referer" = HeaderResult.ok none →
      refererOf req = "/" := by
    intro h; simp [refererOf, h]
  have href2 : req.headerGet "Referer" = HeaderResult.err →
      refererOf req = "/" := by
    intro h; simp [refererOf, h]
  unfold handle_server_fns_with_context
  rw [hreg]
  simp only [hcall]
  by_cases hP : (acceptOf req = some "application/json" ∨
      acceptOf req = some "application/x-www-form-urlencoded" ∨
      acceptOf req = some "application/cbor")
  · cases payload <;>
      exact ⟨_, rfl,
        by simp [hP, hstatus, WResponse.with_status, WResponse.with_headers,
          WResponse.from_body],
        by simp [hP], href1, href2⟩
  · cases payload <;>
      refine ⟨_, rfl, ?_, fun _ => ⟨?_, ?_⟩, href1, href2⟩ <;>
      simp [hP, hstatus, WResponse.with_status, WResponse.with_headers,
        WResponse.from_body, Headers.set, Headers.get, Headers.new,
        List.filter, nameEq_LL, nameEq_LC, nameEq_CL, joinVals]

/-- Witness for C9: a request with no `Accept` header and `Referer: /prev`
whose server function sets no override — the response is a 303 redirect back
to `/prev`. -/
theorem c9_default_status_witness :
    ∃ r, (handle_server_fns_with_context c9Reg c9Req).1 = Except.ok r ∧
      (r.status = 200 ↔
        (acceptOf c9Req = some "application/json" ∨
         acceptOf c9Req = some "application/x-www-form-urlencoded" ∨
         acceptOf c9Req = some "application/cbor")) ∧
      (¬(acceptOf c9Req = some "application/json" ∨
         acceptOf c9Req = some "application/x-www-form-urlencoded" ∨
         acceptOf c9Req = some "application/cbor") →
        r.status = 303 ∧
          r.headers.get "Location" = some (refererOf c9Req)) ∧
      (c9Req.headerGet "Referer" = HeaderResult.ok none →
        refererOf c9Req = "/") ∧
      (c9Req.headerGet "Referer" = HeaderResult.err → refererOf c9Req = "/") :=
  c9_default_status c9Reg c9Req c9Fn (Payload.Json "1")
    ResponseParts.default rfl rfl rfl

/-- C10: `redirect` with a `ResponseOptions` present in the scope's context
sets the status to 302 and makes the `Location` header read exactly the given
path, overwriting any previous `Location` value; with no `ResponseOptions` in
context it is a no-op. -/
theorem c10_redirect (parts : ResponseParts) (path : String) :
    (∃ parts2, redirect (some parts) path = some parts2 ∧
      parts2.status = some 302 ∧
      parts2.headers.get "Location" = some path) ∧
    redirect none path = none := by
  refine ⟨⟨_, rfl, rfl, ?_⟩, rfl⟩
  simp [ResponseOptions.insert_header, ResponseOptions.set_status]
  exact Headers.get_set_self _ _ _
